import Mathlib

/-!
Verification development for the image-upload service.

The definitions below are a shallow embedding of the TypeScript source:
buffers are lists of byte values (`List Nat`), JavaScript numbers used as
file sizes are `Int`, thrown `ServiceError`s become `Except` errors, and
the in-memory `Map` behind the session store becomes an association list
with JavaScript `Map` insertion semantics (replace in place when the key
exists, append otherwise).
-/

deriving instance DecidableEq for Except

/-- Mirror of the `ServiceError` class: a stable code, a localized
message and an HTTP-like status. -/
structure ServiceError where
  code : String
  message : String
  status : Nat
deriving DecidableEq, Repr

/-- JavaScript indexing `buf[i]`: `none` (undefined) when the index is
negative or out of range. -/
def jsIndex (buf : List Nat) (i : Int) : Option Nat :=
  if i < 0 then none else buf.get? i.toNat

/-- Mirror of `pattern.every((byte, index) => buf[off + index] === byte)`. -/
def matchesAt (buf pattern : List Nat) (off : Int) : Bool :=
  pattern.enum.all fun p => jsIndex buf (off + (p.1 : Int)) == some p.2

/-- `IMAGE_VALIDATION_LIMITS.MAX_FILE_SIZE`: 15 MiB in bytes. -/
def MAX_FILE_SIZE : Int := 15 * 1024 * 1024

/-- `IMAGE_VALIDATION_LIMITS.MIN_FILE_SIZE`. -/
def MIN_FILE_SIZE : Int := 1

/-- `IMAGE_VALIDATION_LIMITS.HEADER_BYTES_TO_READ`. -/
def HEADER_BYTES_TO_READ : Nat := 12

/-- `IMAGE_VALIDATION_SIGNATURES.PNG`. -/
def pngSignature : List Nat := [0x89, 0x50, 0x4e, 0x47, 0x0d, 0x0a, 0x1a, 0x0a]

/-- `IMAGE_VALIDATION_SIGNATURES.JPEG`. -/
def jpegSignature : List Nat := [0xff, 0xd8, 0xff]

/-- Error thrown by `validateFileSize` when `fileSize < MIN_FILE_SIZE`. -/
def corruptedEmptyError : ServiceError :=
  ⟨"CORRUPTED_FILE", "O arquivo parece estar vazio ou corrompido", 400⟩

/-- Error thrown by `validateFileSize` when `fileSize > MAX_FILE_SIZE`. -/
def fileTooLargeError : ServiceError :=
  ⟨"FILE_TOO_LARGE",
   "O arquivo excede o tamanho máximo permitido de 15MB. Por favor, envie um arquivo menor.",
   400⟩

/-- Error thrown by `validateFileExtension`. -/
def invalidExtensionError : ServiceError :=
  ⟨"INVALID_EXTENSION",
   "O formato do arquivo não é suportado. Por favor, envie apenas imagens PNG ou JPEG.",
   400⟩

/-- Error thrown by `validateFileFormat` when no signature matches. -/
def notAnImageError : ServiceError :=
  ⟨"NOT_AN_IMAGE",
   "O arquivo enviado não é uma imagem válida. Por favor, envie apenas imagens PNG ou JPEG.",
   400⟩

/-- Error thrown by `validateFileFormat` on an extension mismatch. -/
def invalidFormatError : ServiceError :=
  ⟨"INVALID_FORMAT",
   "O formato real do arquivo não corresponde à sua extensão. Por favor, verifique o arquivo.",
   400⟩

/-- Error thrown by `validateFileIntegrity` for a PNG without IEND. -/
def corruptedPngError : ServiceError :=
  ⟨"CORRUPTED_FILE",
   "O arquivo PNG parece estar corrompido ou danificado. Por favor, tente enviar outro arquivo.",
   400⟩

/-- Error thrown by `validateFileIntegrity` for a JPEG without EOI. -/
def corruptedJpegError : ServiceError :=
  ⟨"CORRUPTED_FILE",
   "O arquivo JPEG parece estar corrompido ou danificado. Por favor, tente enviar outro arquivo.",
   400⟩

/-- Mirror of `validateFileSize` in the image-validation service. -/
def validateFileSize (fileSize : Int) : Except ServiceError Bool :=
  if fileSize < MIN_FILE_SIZE then .error corruptedEmptyError
  else if fileSize > MAX_FILE_SIZE then .error fileTooLargeError
  else .ok true

/-- JavaScript `str.lastIndexOf(c)` on the character list of a string:
the index of the last occurrence, or `-1` when absent. -/
def lastIndexOfChar (l : List Char) (c : Char) : Int :=
  match (l.enum.filter fun p => p.2 == c).getLast? with
  | some p => (p.1 : Int)
  | none => -1

/-- JavaScript `str.substring(start)` (single argument): negative starts
clamp to 0. -/
def jsSubstringFrom (l : List Char) (i : Int) : List Char :=
  l.drop i.toNat

/-- The allowed extensions `IMAGE_VALIDATION_EXTENSIONS`. -/
def allowedExtensions : List String := [".png", ".jpg", ".jpeg"]

/-- Mirror of `validateFileExtension`: extract
`fileName.substring(fileName.lastIndexOf('.')).toLowerCase()` and require
membership in the allowed list. -/
def validateFileExtension (fileName : String) : Except ServiceError String :=
  let extension :=
    String.mk ((jsSubstringFrom fileName.toList (lastIndexOfChar fileName.toList '.')).map
      Char.toLower)
  if extension ∈ allowedExtensions then .ok extension
  else .error invalidExtensionError

/-- Mirror of `detectFileFormat`: signature-based classification. -/
def detectFileFormat (fileBuffer : List Nat) : Option String :=
  if fileBuffer.length < HEADER_BYTES_TO_READ then none
  else if matchesAt fileBuffer pngSignature 0 then some "png"
  else if matchesAt fileBuffer jpegSignature 0 then some "jpeg"
  else none

/-- Mirror of `validateFileFormat`: detected format must match the
extension family. -/
def validateFileFormat (extension : String) (fileBuffer : List Nat) :
    Except ServiceError String :=
  match detectFileFormat fileBuffer with
  | none => .error notAnImageError
  | some detectedFormat =>
    let extensionFormat := if extension = ".png" then "png" else "jpeg"
    if detectedFormat ≠ extensionFormat then .error invalidFormatError
    else .ok detectedFormat

/-- PNG IEND chunk trailer bytes. -/
def pngEndSignature : List Nat := [0x49, 0x45, 0x4e, 0x44, 0xae, 0x42, 0x60, 0x82]

/-- JPEG EOI trailer bytes. -/
def jpegEndMarker : List Nat := [0xff, 0xd9]

/-- Mirror of `validateFileIntegrity`: trailing-byte check selected by the
detected format. -/
def validateFileIntegrity (fileBuffer : List Nat) (format : String) :
    Except ServiceError Bool :=
  if format = "png" then
    let endOffset : Int := (fileBuffer.length : Int) - 8
    if matchesAt fileBuffer pngEndSignature endOffset then .ok true
    else .error corruptedPngError
  else if format = "jpeg" then
    let endOffset : Int := (fileBuffer.length : Int) - 2
    if matchesAt fileBuffer jpegEndMarker endOffset then .ok true
    else .error corruptedJpegError
  else .ok true

/-- Mirror of the `ValidationDetails` progressive flag record. -/
structure ValidationDetails where
  sizeValid : Bool
  extensionValid : Bool
  formatValid : Bool
  signatureValid : Bool
  integrityValid : Bool
  detectedFormat : Option String
  declaredExtension : Option String
deriving DecidableEq, Repr

/-- The all-false initial `details` value of `validateImageFile`. -/
def initialDetails : ValidationDetails :=
  ⟨false, false, false, false, false, none, none⟩

/-- Mirror of the `ValidationResult` record. -/
structure ValidationResult where
  isValid : Bool
  errorCode : Option String
  errorMessage : Option String
  details : ValidationDetails
deriving DecidableEq, Repr

/-- Mirror of `FileValidationInput`. -/
structure FileValidationInput where
  fileName : String
  fileSize : Int
  mimeType : String
  fileBuffer : List Nat
deriving DecidableEq, Repr

/-- The catch-branch of `validateImageFile` for a thrown `ServiceError`:
the details carry the flags accumulated before the throw. -/
def failureResult (e : ServiceError) (details : ValidationDetails) : ValidationResult :=
  ⟨false, some e.code, some e.message, details⟩

/-- Mirror of `validateImageFile`: the ordered chain
size → extension → signature/format → integrity with first-failure
short-circuit, the `details` flags accumulating exactly as in the source. -/
def validateImageFile (input : FileValidationInput) : ValidationResult :=
  match validateFileSize input.fileSize with
  | .error e => failureResult e initialDetails
  | .ok _ =>
    let d1 := { initialDetails with sizeValid := true }
    match validateFileExtension input.fileName with
    | .error e => failureResult e d1
    | .ok extension =>
      let d2 := { d1 with extensionValid := true, declaredExtension := some extension }
      match validateFileFormat extension input.fileBuffer with
      | .error e => failureResult e d2
      | .ok detectedFormat =>
        let d3 := { d2 with formatValid := true, signatureValid := true,
                            detectedFormat := some detectedFormat }
        match validateFileIntegrity input.fileBuffer detectedFormat with
        | .error e => failureResult e d3
        | .ok _ =>
          ⟨true, none, none, { d3 with integrityValid := true }⟩

/-- C2: the size stage rejects declared sizes below one byte as
`CORRUPTED_FILE`, rejects sizes above 15 MiB as `FILE_TOO_LARGE`, and
accepts everything in between, the limit itself included; it is a
function of the size alone. -/
theorem c2_size_stage (fileSize : Int) :
    (fileSize < 1 → validateFileSize fileSize = .error corruptedEmptyError)
    ∧ (fileSize > 15728640 → validateFileSize fileSize = .error fileTooLargeError)
    ∧ (1 ≤ fileSize → fileSize ≤ 15728640 → validateFileSize fileSize = .ok true) := by
  refine ⟨fun h => ?_, fun h => ?_, fun h1 h2 => ?_⟩
  · simp [validateFileSize, MIN_FILE_SIZE, h]
  · have h1 : ¬ fileSize < MIN_FILE_SIZE := by
      simp only [MIN_FILE_SIZE]; omega
    simp [validateFileSize, h1, MAX_FILE_SIZE]; omega
  · have h3 : ¬ fileSize < MIN_FILE_SIZE := by
      simp only [MIN_FILE_SIZE]; omega
    have h4 : ¬ fileSize > MAX_FILE_SIZE := by
      simp only [MAX_FILE_SIZE]; omega
    simp [validateFileSize, h3, h4]

/-- Concrete instantiation of `c2_size_stage` at sizes 0, 15728641 and
the limit 15728640. -/
theorem c2_size_stage_witness :
    validateFileSize 0 = .error corruptedEmptyError
    ∧ validateFileSize 15728641 = .error fileTooLargeError
    ∧ validateFileSize 15728640 = .ok true :=
  ⟨(c2_size_stage 0).1 (by decide),
   (c2_size_stage 15728641).2.1 (by decide),
   (c2_size_stage 15728640).2.2 (by decide) (by decide)⟩

/-- Recursive companion of `matchesAt`, walking the pattern while moving
the offset. -/
def matchesAux (buf : List Nat) (off : Int) : List Nat → Bool
  | [] => true
  | b :: rest => (jsIndex buf off == some b) && matchesAux buf (off + 1) rest

theorem matchesAux_cons (buf : List Nat) (off : Int) (b : Nat) (rest : List Nat) :
    matchesAux buf off (b :: rest)
      = ((jsIndex buf off == some b) && matchesAux buf (off + 1) rest) := rfl

theorem matchesAt_eq_matchesAux (buf sig : List Nat) (off : Int) :
    matchesAt buf sig off = matchesAux buf off sig := by
  have key : ∀ (l : List Nat) (n : Nat) (off : Int),
      ((l.enumFrom n).all fun p => jsIndex buf (off + (p.1 : Int)) == some p.2)
        = matchesAux buf (off + (n : Int)) l := by
    intro l
    induction l with
    | nil => intro n off; rfl
    | cons b rest ih =>
      intro n off
      show ((jsIndex buf (off + (n : Int)) == some b)
          && ((rest.enumFrom (n + 1)).all fun p => jsIndex buf (off + (p.1 : Int)) == some p.2))
        = matchesAux buf (off + (n : Int)) (b :: rest)
      have hcast : off + ((n + 1 : Nat) : Int) = (off + (n : Int)) + 1 := by push_cast; ring
      rw [ih (n + 1) off, hcast, matchesAux_cons]
  have h0 := key sig 0 off
  simpa [matchesAt] using h0

theorem matchesAux_eq_isPrefixOf (sig : List Nat) : ∀ (k : Nat) (buf : List Nat),
    matchesAux buf (k : Int) sig = sig.isPrefixOf (buf.drop k) := by
  induction sig with
  | nil =>
    intro k buf
    cases buf.drop k <;> rfl
  | cons b rest ih =>
    intro k buf
    rw [matchesAux_cons]
    have hj : jsIndex buf (k : Int) = buf[k]? := by
      simp [jsIndex]
    cases hd : buf.drop k with
    | nil =>
      have hlen : buf.length ≤ k := List.drop_eq_nil_iff.mp hd
      have hnone : buf[k]? = none := by
        rw [List.getElem?_eq_none hlen]
      rw [hj, hnone]
      rfl
    | cons x xs =>
      have h0 : buf[k]? = some x := by
        have hdrop := List.getElem?_drop buf k 0
        rw [hd] at hdrop
        simpa using hdrop.symm
      have hxs : buf.drop (k + 1) = xs := by
        have hdd := List.drop_drop 1 k buf
        rw [hd] at hdd
        simpa using hdd.symm
      have hcast : (k : Int) + 1 = ((k + 1 : Nat) : Int) := by push_cast; ring
      rw [hj, h0, hcast, ih (k + 1) buf, hxs]
      show ((some x == some b) && rest.isPrefixOf xs) = (b :: rest).isPrefixOf (x :: xs)
      have hrhs : (b :: rest).isPrefixOf (x :: xs) = ((b == x) && rest.isPrefixOf xs) := rfl
      rw [hrhs, Bool.eq_iff_iff]
      simp only [Bool.and_eq_true, beq_iff_eq, Option.some.injEq]
      constructor
      · rintro ⟨h1, h2⟩; exact ⟨h1.symm, h2⟩
      · rintro ⟨h1, h2⟩; exact ⟨h1.symm, h2⟩

theorem matchesAux_neg_cons (buf : List Nat) (off : Int) (h : off < 0) (b : Nat)
    (rest : List Nat) : matchesAux buf off (b :: rest) = false := by
  rw [matchesAux_cons]
  simp [jsIndex, h]

theorem matchesAt_zero_iff (buf sig : List Nat) :
    matchesAt buf sig 0 = true ↔ sig <+: buf := by
  rw [matchesAt_eq_matchesAux, show (0 : Int) = ((0 : Nat) : Int) from rfl,
    matchesAux_eq_isPrefixOf, List.drop_zero, List.isPrefixOf_iff_prefix]

theorem matchesAt_trailer_iff (buf sig : List Nat) (hs : sig ≠ []) :
    matchesAt buf sig ((buf.length : Int) - (sig.length : Int)) = true
      ↔ sig.length ≤ buf.length ∧ buf.drop (buf.length - sig.length) = sig := by
  rw [matchesAt_eq_matchesAux]
  by_cases hle : sig.length ≤ buf.length
  · have hcast : (buf.length : Int) - (sig.length : Int)
        = ((buf.length - sig.length : Nat) : Int) := by omega
    rw [hcast, matchesAux_eq_isPrefixOf, List.isPrefixOf_iff_prefix]
    constructor
    · intro h
      refine ⟨hle, ?_⟩
      have hlen : sig.length = (buf.drop (buf.length - sig.length)).length := by
        rw [List.length_drop]; omega
      exact (h.eq_of_length hlen).symm
    · rintro ⟨-, h⟩
      rw [h]
  · obtain ⟨b, rest, rfl⟩ : ∃ b rest, sig = b :: rest := by
      cases sig with
      | nil => exact absurd rfl hs
      | cons b r => exact ⟨b, r, rfl⟩
    have hneg : (buf.length : Int) - (((b :: rest).length : Nat) : Int) < 0 := by
      have : buf.length < (b :: rest).length := by omega
      omega
    rw [matchesAux_neg_cons _ _ hneg]
    refine ⟨fun hcontra => ?_, fun hcon => ?_⟩
    · exact absurd hcontra (by decide)
    · exact absurd hcon.1 hle

/-- C3: the signature detector returns `png` exactly on buffers of at
least 12 bytes starting with the 8-byte PNG signature, `jpeg` exactly on
buffers of at least 12 bytes starting with `FF D8 FF`, and `none` for
every other buffer, every buffer of fewer than 12 bytes included; being
a Lean function it is total and never throws. -/
theorem c3_detect_file_format (buf : List Nat) :
    (buf.length < 12 → detectFileFormat buf = none)
    ∧ (12 ≤ buf.length → buf.take 8 = pngSignature → detectFileFormat buf = some "png")
    ∧ (12 ≤ buf.length → buf.take 3 = jpegSignature → detectFileFormat buf = some "jpeg")
    ∧ (12 ≤ buf.length → buf.take 8 ≠ pngSignature → buf.take 3 ≠ jpegSignature →
        detectFileFormat buf = none) := by
  have hplen : pngSignature.length = 8 := rfl
  have hjlen : jpegSignature.length = 3 := rfl
  have hpng_iff : matchesAt buf pngSignature 0 = true ↔ buf.take 8 = pngSignature := by
    rw [matchesAt_zero_iff, List.prefix_iff_eq_take, hplen, eq_comm]
  have hjpeg_iff : matchesAt buf jpegSignature 0 = true ↔ buf.take 3 = jpegSignature := by
    rw [matchesAt_zero_iff, List.prefix_iff_eq_take, hjlen, eq_comm]
  refine ⟨fun h => ?_, fun h h8 => ?_, fun h h3 => ?_, fun h h8 h3 => ?_⟩
  · simp [detectFileFormat, HEADER_BYTES_TO_READ, h]
  · have hm : matchesAt buf pngSignature 0 = true := hpng_iff.mpr h8
    simp [detectFileFormat, HEADER_BYTES_TO_READ, Nat.not_lt.mpr h, hm]
  · have hnp : buf.take 8 ≠ pngSignature := by
      intro hcontra
      have : buf.take 3 = pngSignature.take 3 := by
        rw [← hcontra, List.take_take]
        norm_num
      rw [h3] at this
      exact absurd this (by decide)
    have hm : matchesAt buf pngSignature 0 = false :=
      Bool.eq_false_iff.mpr fun hc => hnp (hpng_iff.mp hc)
    have hm2 : matchesAt buf jpegSignature 0 = true := hjpeg_iff.mpr h3
    simp [detectFileFormat, HEADER_BYTES_TO_READ, Nat.not_lt.mpr h, hm, hm2]
  · have hm : matchesAt buf pngSignature 0 = false :=
      Bool.eq_false_iff.mpr fun hc => h8 (hpng_iff.mp hc)
    have hm2 : matchesAt buf jpegSignature 0 = false :=
      Bool.eq_false_iff.mpr fun hc => h3 (hjpeg_iff.mp hc)
    simp [detectFileFormat, HEADER_BYTES_TO_READ, Nat.not_lt.mpr h, hm, hm2]

/-- Concrete instantiation of `c3_detect_file_format`: a 12-byte PNG
header detects as png, a 12-byte JPEG header as jpeg, a 5-byte buffer
and an all-zero 12-byte buffer as unknown. -/
theorem c3_detect_file_format_witness :
    detectFileFormat [0x89, 0x50, 0x4e, 0x47, 0x0d, 0x0a, 0x1a, 0x0a, 0, 0, 0, 0] = some "png"
    ∧ detectFileFormat [0xff, 0xd8, 0xff, 0, 0, 0, 0, 0, 0, 0, 0, 0] = some "jpeg"
    ∧ detectFileFormat [0, 0, 0, 0, 0] = none
    ∧ detectFileFormat [0, 0, 0, 0, 0, 0, 0, 0, 0, 0, 0, 0] = none :=
  ⟨(c3_detect_file_format _).2.1 (by decide) (by decide),
   (c3_detect_file_format _).2.2.1 (by decide) (by decide),
   (c3_detect_file_format _).1 (by decide),
   (c3_detect_file_format _).2.2.2 (by decide) (by decide) (by decide)⟩

/-- C4: the integrity stage accepts a buffer classified as PNG exactly
when it is at least 8 bytes long and its last 8 bytes are the IEND
trailer, accepts a buffer classified as JPEG exactly when it is at least
2 bytes long and its last 2 bytes are `FF D9`, shorter buffers failing
the check, and every failure carries the code `CORRUPTED_FILE`. -/
theorem c4_integrity_check (buf : List Nat) :
    (validateFileIntegrity buf "png" = .ok true
        ↔ 8 ≤ buf.length ∧ buf.drop (buf.length - 8) = pngEndSignature)
    ∧ (¬ (8 ≤ buf.length ∧ buf.drop (buf.length - 8) = pngEndSignature) →
        validateFileIntegrity buf "png" = .error corruptedPngError)
    ∧ (validateFileIntegrity buf "jpeg" = .ok true
        ↔ 2 ≤ buf.length ∧ buf.drop (buf.length - 2) = jpegEndMarker)
    ∧ (¬ (2 ≤ buf.length ∧ buf.drop (buf.length - 2) = jpegEndMarker) →
        validateFileIntegrity buf "jpeg" = .error corruptedJpegError)
    ∧ corruptedPngError.code = "CORRUPTED_FILE"
    ∧ corruptedJpegError.code = "CORRUPTED_FILE" := by
  have hpng := matchesAt_trailer_iff buf pngEndSignature (by decide)
  have hjpeg := matchesAt_trailer_iff buf jpegEndMarker (by decide)
  have hplen : ((pngEndSignature.length : Nat) : Int) = 8 := rfl
  have hplen2 : pngEndSignature.length = 8 := rfl
  have hjlen : ((jpegEndMarker.length : Nat) : Int) = 2 := rfl
  have hjlen2 : jpegEndMarker.length = 2 := rfl
  rw [hplen, hplen2] at hpng
  rw [hjlen, hjlen2] at hjpeg
  refine ⟨?_, fun h => ?_, ?_, fun h => ?_, rfl, rfl⟩
  · rw [← hpng]
    by_cases hm : matchesAt buf pngEndSignature ((buf.length : Int) - 8) = true
    · simp [validateFileIntegrity, hm]
    · simp [validateFileIntegrity, Bool.eq_false_iff.mpr hm]
  · have hm : matchesAt buf pngEndSignature ((buf.length : Int) - 8) = false :=
      Bool.eq_false_iff.mpr fun hc => h (hpng.mp hc)
    simp [validateFileIntegrity, hm]
  · rw [← hjpeg]
    by_cases hm : matchesAt buf jpegEndMarker ((buf.length : Int) - 2) = true
    · simp [validateFileIntegrity, hm]
    · simp [validateFileIntegrity, Bool.eq_false_iff.mpr hm]
  · have hm : matchesAt buf jpegEndMarker ((buf.length : Int) - 2) = false :=
      Bool.eq_false_iff.mpr fun hc => h (hjpeg.mp hc)
    simp [validateFileIntegrity, hm]

/-- Lowercasing never turns another character into a dot. -/
theorem toLower_eq_dot {c : Char} (h : c.toLower = '.') : c = '.' := by
  simp only [Char.toLower] at h
  by_cases hcond : c.toNat ≥ 65 ∧ c.toNat ≤ 90
  · exfalso
    rw [if_pos hcond] at h
    have hvalid : (c.toNat + 32).isValidChar := by
      left
      omega
    have h46 := congrArg Char.toNat h
    have hofnat : (Char.ofNat (c.toNat + 32)).toNat = c.toNat + 32 := by
      simp only [Char.ofNat, hvalid, dif_pos]
      rfl
    rw [hofnat] at h46
    have hdot : ('.' : Char).toNat = 46 := by decide
    omega
  · rw [if_neg hcond] at h
    exact h

/-- Enumerations of a list without the searched character filter to
nothing. -/
theorem filter_enumFrom_eq_nil (c : Char) : ∀ (l : List Char) (n : Nat), c ∉ l →
    (l.enumFrom n).filter (fun p => p.2 == c) = [] := by
  intro l
  induction l with
  | nil => intro n _; rfl
  | cons x xs ih =>
    intro n h
    have hx : ¬ ((x == c) = true) := by
      simp only [beq_iff_eq]
      intro hcontra
      exact h (hcontra ▸ List.mem_cons_self x xs)
    show List.filter _ ((n, x) :: xs.enumFrom (n + 1)) = []
    rw [List.filter_cons, if_neg hx]
    exact ih (n + 1) fun hm => h (List.mem_cons_of_mem _ hm)

theorem lastIndexOfChar_of_not_mem (l : List Char) (c : Char) (h : c ∉ l) :
    lastIndexOfChar l c = -1 := by
  unfold lastIndexOfChar
  rw [show l.enum = l.enumFrom 0 from rfl, filter_enumFrom_eq_nil c l 0 h]
  rfl

theorem lastIndexOfChar_head (c : Char) (rest : List Char) (h : c ∉ rest) :
    lastIndexOfChar (c :: rest) c = 0 := by
  unfold lastIndexOfChar
  rw [show (c :: rest).enum = (0, c) :: rest.enumFrom 1 from rfl, List.filter_cons,
    if_pos (by simp), filter_enumFrom_eq_nil c rest 1 h]
  rfl

/-- A file name whose lowercase form is exactly `.` followed by a
dot-free tail extracts itself as the extension. -/
theorem validateFileExtension_exact (fileName : String) (tail : List Char)
    (hm : fileName.toList.map Char.toLower = '.' :: tail)
    (hnd : '.' ∉ tail)
    (hmem : String.mk ('.' :: tail) ∈ allowedExtensions) :
    validateFileExtension fileName = .ok (String.mk ('.' :: tail)) := by
  cases hl : fileName.toList with
  | nil => rw [hl] at hm; simp at hm
  | cons c0 rest =>
    rw [hl] at hm
    simp only [List.map_cons, List.cons.injEq] at hm
    obtain ⟨h0, hrest⟩ := hm
    have hc0 : c0 = '.' := toLower_eq_dot h0
    subst hc0
    have hnr : '.' ∉ rest := by
      intro hmemr
      have hmm : '.' ∈ rest.map Char.toLower :=
        List.mem_map.mpr ⟨'.', hmemr, by decide⟩
      rw [hrest] at hmm
      exact hnd hmm
    have hmap : ('.' :: rest).map Char.toLower = '.' :: tail := by
      simp only [List.map_cons, hrest, List.cons.injEq, and_true]
      decide
    simp only [validateFileExtension, hl, lastIndexOfChar_head '.' rest hnr]
    show (if String.mk ((('.' :: rest).drop (Int.toNat 0)).map Char.toLower) ∈ allowedExtensions
        then Except.ok (String.mk ((('.' :: rest).drop (Int.toNat 0)).map Char.toLower))
        else Except.error invalidExtensionError)
      = .ok (String.mk ('.' :: tail))
    rw [show ('.' :: rest).drop (Int.toNat 0) = '.' :: rest from rfl, hmap, if_pos hmem]

/-- C10: the extension stage extracts the substring from the last dot
inclusive, lower-cased, so a file name without any dot always fails
with `INVALID_EXTENSION`, while a file name that is exactly an allowed
extension in any letter case (no base name) passes and yields that
extension lower-cased. -/
theorem c10_extension_stage (fileName : String) :
    ('.' ∉ fileName.toList →
        validateFileExtension fileName = .error invalidExtensionError)
    ∧ (∀ ext, ext ∈ allowedExtensions →
        String.mk (fileName.toList.map Char.toLower) = ext →
        validateFileExtension fileName = .ok ext) := by
  constructor
  · intro h
    have hmem : String.mk (fileName.toList.map Char.toLower) ∉ allowedExtensions := by
      intro hmem
      have hdot : '.' ∈ fileName.toList.map Char.toLower := by
        simp only [allowedExtensions, List.mem_cons, List.mem_singleton,
          List.not_mem_nil, or_false] at hmem
        rcases hmem with h1 | h1 | h1 <;>
          · have h2 := congrArg String.toList h1
            rw [show (String.mk (fileName.toList.map Char.toLower)).toList
                = fileName.toList.map Char.toLower from rfl] at h2
            rw [h2]
            decide
      rcases List.mem_map.mp hdot with ⟨a, ha, hla⟩
      exact h (toLower_eq_dot hla ▸ ha)
    simp only [validateFileExtension, lastIndexOfChar_of_not_mem _ _ h]
    rw [show jsSubstringFrom fileName.toList (-1) = fileName.toList from rfl, if_neg hmem]
  · rintro ext hext hlow
    simp only [allowedExtensions, List.mem_cons, List.mem_singleton,
      List.not_mem_nil, or_false] at hext
    rcases hext with rfl | rfl | rfl
    · have hm : fileName.toList.map Char.toLower = ['.', 'p', 'n', 'g'] :=
        (congrArg String.toList hlow)
      exact (validateFileExtension_exact fileName ['p', 'n', 'g'] hm (by decide)
        (by decide))
    · have hm : fileName.toList.map Char.toLower = ['.', 'j', 'p', 'g'] :=
        (congrArg String.toList hlow)
      exact (validateFileExtension_exact fileName ['j', 'p', 'g'] hm (by decide)
        (by decide))
    · have hm : fileName.toList.map Char.toLower = ['.', 'j', 'p', 'e', 'g'] :=
        (congrArg String.toList hlow)
      exact (validateFileExtension_exact fileName ['j', 'p', 'e', 'g'] hm (by decide)
        (by decide))

/-- Concrete instantiation of `c10_extension_stage`: a dot-free name is
rejected and the bare upper-case name `.PNG` is accepted as `.png`. -/
theorem c10_extension_stage_witness :
    validateFileExtension "photo" = .error invalidExtensionError
    ∧ validateFileExtension ".PNG" = .ok ".png" :=
  ⟨(c10_extension_stage "photo").1 (by decide),
   (c10_extension_stage ".PNG").2 ".png" (by decide) (by decide)⟩

/-- Concrete instantiation of `c4_integrity_check`: the 8-byte IEND
trailer alone passes the PNG check, the empty buffer fails it, `FF D9`
alone passes the JPEG check, and a one-byte buffer fails it. -/
theorem c4_integrity_check_witness :
    validateFileIntegrity [0x49, 0x45, 0x4e, 0x44, 0xae, 0x42, 0x60, 0x82] "png" = .ok true
    ∧ validateFileIntegrity [] "png" = .error corruptedPngError
    ∧ validateFileIntegrity [0xff, 0xd9] "jpeg" = .ok true
    ∧ validateFileIntegrity [0] "jpeg" = .error corruptedJpegError :=
  ⟨(c4_integrity_check _).1.mpr (by decide),
   (c4_integrity_check _).2.1 (by decide),
   (c4_integrity_check _).2.2.1.mpr (by decide),
   (c4_integrity_check _).2.2.2.1 (by decide)⟩

/-- C1: the validation chain runs size, extension, signature/format,
integrity in that order; the first failing stage yields its error code
and leaves every later flag false, and success sets all five flags,
populates both format fields, and clears the error code. -/
theorem c1_validation_chain (input : FileValidationInput) :
    (∀ e, validateFileSize input.fileSize = .error e →
        validateImageFile input
          = ⟨false, some e.code, some e.message, ⟨false, false, false, false, false, none, none⟩⟩)
    ∧ (∀ b e, validateFileSize input.fileSize = .ok b →
        validateFileExtension input.fileName = .error e →
        validateImageFile input
          = ⟨false, some e.code, some e.message, ⟨true, false, false, false, false, none, none⟩⟩)
    ∧ (∀ b ext e, validateFileSize input.fileSize = .ok b →
        validateFileExtension input.fileName = .ok ext →
        validateFileFormat ext input.fileBuffer = .error e →
        validateImageFile input
          = ⟨false, some e.code, some e.message,
             ⟨true, true, false, false, false, none, some ext⟩⟩)
    ∧ (∀ b ext fmt e, validateFileSize input.fileSize = .ok b →
        validateFileExtension input.fileName = .ok ext →
        validateFileFormat ext input.fileBuffer = .ok fmt →
        validateFileIntegrity input.fileBuffer fmt = .error e →
        validateImageFile input
          = ⟨false, some e.code, some e.message,
             ⟨true, true, true, true, false, some fmt, some ext⟩⟩)
    ∧ (∀ b ext fmt b2, validateFileSize input.fileSize = .ok b →
        validateFileExtension input.fileName = .ok ext →
        validateFileFormat ext input.fileBuffer = .ok fmt →
        validateFileIntegrity input.fileBuffer fmt = .ok b2 →
        validateImageFile input
          = ⟨true, none, none, ⟨true, true, true, true, true, some fmt, some ext⟩⟩)
    ∧ ((validateImageFile input).isValid = true →
        (validateImageFile input).details.sizeValid = true
        ∧ (validateImageFile input).details.extensionValid = true
        ∧ (validateImageFile input).details.formatValid = true
        ∧ (validateImageFile input).details.signatureValid = true
        ∧ (validateImageFile input).details.integrityValid = true
        ∧ (validateImageFile input).details.detectedFormat.isSome = true
        ∧ (validateImageFile input).details.declaredExtension.isSome = true
        ∧ (validateImageFile input).errorCode = none) := by
  refine ⟨fun e h1 => ?_, fun b e h1 h2 => ?_, fun b ext e h1 h2 h3 => ?_,
    fun b ext fmt e h1 h2 h3 h4 => ?_, fun b ext fmt b2 h1 h2 h3 h4 => ?_, fun hv => ?_⟩
  · simp [validateImageFile, h1, failureResult, initialDetails]
  · simp [validateImageFile, h1, h2, failureResult, initialDetails]
  · simp [validateImageFile, h1, h2, h3, failureResult, initialDetails]
  · simp [validateImageFile, h1, h2, h3, h4, failureResult, initialDetails]
  · simp [validateImageFile, h1, h2, h3, h4, initialDetails]
  · rcases h1 : validateFileSize input.fileSize with e1 | b1
    · simp [validateImageFile, h1, failureResult] at hv
    · rcases h2 : validateFileExtension input.fileName with e2 | ext
      · simp [validateImageFile, h1, h2, failureResult] at hv
      · rcases h3 : validateFileFormat ext input.fileBuffer with e3 | fmt
        · simp [validateImageFile, h1, h2, h3, failureResult] at hv
        · rcases h4 : validateFileIntegrity input.fileBuffer fmt with e4 | b4
          · simp [validateImageFile, h1, h2, h3, h4, failureResult] at hv
          · simp [validateImageFile, h1, h2, h3, h4, initialDetails]

/-- Concrete instantiation of `c1_validation_chain`: a 16-byte buffer of
PNG header plus IEND trailer named `photo.png` of size 20 passes every
stage, and an empty file of size 0 fails at the size stage with all
flags false. -/
theorem c1_validation_chain_witness :
    validateImageFile
        ⟨"photo.png", 20, "image/png",
         [0x89, 0x50, 0x4e, 0x47, 0x0d, 0x0a, 0x1a, 0x0a,
          0x49, 0x45, 0x4e, 0x44, 0xae, 0x42, 0x60, 0x82]⟩
      = ⟨true, none, none, ⟨true, true, true, true, true, some "png", some ".png"⟩⟩
    ∧ validateImageFile ⟨"photo.png", 0, "image/png", []⟩
      = ⟨false, some "CORRUPTED_FILE", some "O arquivo parece estar vazio ou corrompido",
         ⟨false, false, false, false, false, none, none⟩⟩ :=
  ⟨(c1_validation_chain _).2.2.2.2.1 true ".png" "png" true (by decide) (by decide)
      (by decide) (by decide),
   (c1_validation_chain _).1 corruptedEmptyError (by decide)⟩

/-- Mirror of `IMAGE_UPLOAD_LIMITS.MAX_SESSIONS`. -/
def MAX_SESSIONS : Nat := 100

/-- Mirror of the `ImageUploadRecord` interface of the session store. -/
structure ImageUploadRecord where
  sessionId : String
  status : String
  fileName : Option String
  fileSize : Option Int
  mimeType : Option String
  fileBuffer : Option (List Nat)
  createdAt : String
  updatedAt : String
deriving DecidableEq, Repr

/-- The private `Map<string, ImageUploadRecord>` of `ImageUploadStore`,
as an insertion-ordered association list. -/
abbrev SessionMap := List (String × ImageUploadRecord)

namespace ImageUploadStore

/-- Mirror of `ImageUploadStore.getBySessionId`. -/
def getBySessionId (s : SessionMap) (sessionId : String) : Option ImageUploadRecord :=
  (s.find? fun p => p.1 == sessionId).map Prod.snd

/-- Mirror of `Map.has`. -/
def has (s : SessionMap) (sessionId : String) : Bool :=
  s.any fun p => p.1 == sessionId

/-- Mirror of `Map.size`. -/
def size (s : SessionMap) : Nat := s.length

/-- JavaScript `Map.set`: replace in place when the key exists, append
otherwise. -/
def set (s : SessionMap) (sessionId : String) (data : ImageUploadRecord) : SessionMap :=
  if has s sessionId then
    s.map fun p => if p.1 == sessionId then (sessionId, data) else p
  else s ++ [(sessionId, data)]

/-- Mirror of `ImageUploadStore.createOrUpdate`, the thrown `Error`
becoming an `Except.error` carrying its message. -/
def createOrUpdate (s : SessionMap) (sessionId : String) (data : ImageUploadRecord) :
    Except String SessionMap :=
  if MAX_SESSIONS ≤ size s ∧ has s sessionId = false then
    .error "Maximum sessions limit reached"
  else .ok (set s sessionId data)

/-- Mirror of `Map.delete` (the returned boolean is not modelled). -/
def delete (s : SessionMap) (sessionId : String) : SessionMap :=
  s.filter fun p => !(p.1 == sessionId)

theorem has_eq_false_iff (s : SessionMap) (id : String) :
    has s id = false ↔ ∀ p ∈ s, p.1 ≠ id := by
  unfold has
  rw [List.any_eq_false]
  constructor
  · intro h p hp
    have := h p hp
    simpa [beq_iff_eq] using this
  · intro h p hp
    simp [beq_iff_eq]
    exact h p hp

theorem find?_eq_none_of_has_false (s : SessionMap) (id : String) (h : has s id = false) :
    (s.find? fun p => p.1 == id) = none := by
  rw [List.find?_eq_none]
  intro x hx
  simp only [beq_iff_eq]
  exact (has_eq_false_iff s id).mp h x hx

theorem find?_replace (id : String) (r : ImageUploadRecord) (s : SessionMap) :
    ((s.map fun p => if p.1 == id then (id, r) else p).find? fun p => p.1 == id)
      = if has s id then some (id, r) else none := by
  induction s with
  | nil => rfl
  | cons p ps ih =>
    by_cases hp : (p.1 == id) = true
    · show List.find? _ ((if p.1 == id then (id, r) else p) :: _) = _
      rw [if_pos hp, List.find?_cons]
      have hh : has (p :: ps) id = true := by
        unfold has
        rw [List.any_cons, hp, Bool.true_or]
      rw [if_pos hh]
      simp [beq_self_eq_true]
    · show List.find? _ ((if p.1 == id then (id, r) else p) :: _) = _
      rw [if_neg hp, List.find?_cons]
      have hp2 : (p.1 == id) = false := by
        cases hval : (p.1 == id) with
        | true => exact absurd hval hp
        | false => rfl
      have hh : has (p :: ps) id = has ps id := by
        unfold has
        rw [List.any_cons, hp2, Bool.false_or]
      rw [hh, hp2]
      exact ih

theorem find?_replace_ne (id id2 : String) (r : ImageUploadRecord) (h : id2 ≠ id)
    (s : SessionMap) :
    ((s.map fun p => if p.1 == id then (id, r) else p).find? fun p => p.1 == id2)
      = s.find? fun p => p.1 == id2 := by
  induction s with
  | nil => rfl
  | cons p ps ih =>
    by_cases hp : (p.1 == id) = true
    · show List.find? _ ((if p.1 == id then (id, r) else p) :: _) = _
      rw [if_pos hp, List.find?_cons, List.find?_cons]
      have hid : (id == id2) = false := beq_eq_false_iff_ne.mpr (Ne.symm h)
      have hpid : p.1 = id := beq_iff_eq.mp hp
      have hp2 : (p.1 == id2) = false := by
        rw [hpid]
        exact hid
      rw [hid, hp2]
      exact ih
    · show List.find? _ ((if p.1 == id then (id, r) else p) :: _) = _
      rw [if_neg hp, List.find?_cons, List.find?_cons]
      cases hp2 : (p.1 == id2) with
      | true => rfl
      | false => exact ih

theorem getBySessionId_set_self (s : SessionMap) (id : String) (r : ImageUploadRecord) :
    getBySessionId (set s id r) id = some r := by
  unfold set
  by_cases h : has s id
  · rw [if_pos h]
    unfold getBySessionId
    rw [find?_replace, if_pos h]
    rfl
  · rw [if_neg h]
    unfold getBySessionId
    rw [List.find?_append, find?_eq_none_of_has_false s id (Bool.eq_false_iff.mpr h),
      Option.none_or, List.find?_cons]
    simp [beq_self_eq_true]

theorem getBySessionId_set_ne (s : SessionMap) (id id2 : String) (r : ImageUploadRecord)
    (h : id2 ≠ id) : getBySessionId (set s id r) id2 = getBySessionId s id2 := by
  unfold set
  by_cases hh : has s id
  · rw [if_pos hh]
    unfold getBySessionId
    rw [find?_replace_ne id id2 r h]
  · rw [if_neg hh]
    unfold getBySessionId
    rw [List.find?_append, List.find?_cons]
    have hid : (id == id2) = false := beq_eq_false_iff_ne.mpr (Ne.symm h)
    rw [hid]
    show ((s.find? fun p => p.1 == id2).or (List.find? _ [])).map Prod.snd = _
    rw [show (List.find? (fun p => p.1 == id2) ([] : SessionMap)) = none from rfl,
      Option.or_none]

theorem size_set (s : SessionMap) (id : String) (r : ImageUploadRecord) :
    size (set s id r) = if has s id then size s else size s + 1 := by
  unfold set size
  by_cases h : has s id
  · rw [if_pos h, if_pos h, List.length_map]
  · rw [if_neg h, if_neg h, List.length_append]
    rfl

theorem keys_set_of_has (s : SessionMap) (id : String) (r : ImageUploadRecord)
    (h : has s id = true) : (set s id r).map Prod.fst = s.map Prod.fst := by
  unfold set
  rw [if_pos h, List.map_map]
  apply List.map_congr_left
  intro p _
  by_cases hp : (p.1 == id) = true
  · simp only [Function.comp, hp, if_pos]
    exact (beq_iff_eq.mp hp).symm
  · simp only [Function.comp, hp, if_neg, Bool.false_eq_true, not_false_iff]

theorem nodup_keys_set (s : SessionMap) (id : String) (r : ImageUploadRecord)
    (hnodup : (s.map Prod.fst).Nodup) : ((set s id r).map Prod.fst).Nodup := by
  by_cases h : has s id
  · rw [keys_set_of_has s id r h]
    exact hnodup
  · unfold set
    rw [if_neg h, List.map_append]
    refine List.Nodup.append hnodup (List.nodup_singleton id) ?_
    intro a ha hb
    simp only [List.map_cons, List.map_nil, List.mem_singleton] at hb
    subst hb
    rcases List.mem_map.mp ha with ⟨p, hp, hfst⟩
    exact (has_eq_false_iff s a).mp (Bool.eq_false_iff.mpr h) p hp hfst

theorem getBySessionId_delete_self (s : SessionMap) (id : String) :
    getBySessionId (delete s id) id = none := by
  unfold delete getBySessionId
  have hnone : ((s.filter fun p => !(p.1 == id)).find? fun p => p.1 == id) = none := by
    rw [List.find?_eq_none]
    intro x hx
    have hmem := (List.mem_filter.mp hx).2
    simp only [Bool.not_eq_eq_eq_not, Bool.not_true] at hmem
    simp [hmem]
  rw [hnone]
  rfl

theorem has_of_getBySessionId (s : SessionMap) (id : String) (r : ImageUploadRecord)
    (h : getBySessionId s id = some r) : has s id = true := by
  unfold getBySessionId at h
  cases hf : s.find? fun q => q.1 == id with
  | none => rw [hf] at h; exact absurd h (by simp)
  | some q =>
    unfold has
    have hpred : (q.1 == id) = true := by
      have hq := List.find?_some hf
      simpa using hq
    exact List.any_eq_true.mpr ⟨q, List.mem_of_find?_eq_some hf, hpred⟩

theorem size_delete_lt (s : SessionMap) (id : String) (h : has s id = true) :
    size (delete s id) < size s := by
  unfold delete size
  rw [List.length_filter_lt_length_iff_exists]
  rcases List.any_eq_true.mp h with ⟨p, hp, hpred⟩
  exact ⟨p, hp, by simp [hpred]⟩

end ImageUploadStore

/-- A minimal record used to populate concrete stores in examples. -/
def blankRecord (id : String) : ImageUploadRecord :=
  ⟨id, "nova", none, none, none, none, "", ""⟩

/-- A store holding `MAX_SESSIONS` distinct session ids. -/
def fullStore : SessionMap :=
  (List.range MAX_SESSIONS).map fun i => (toString i, blankRecord (toString i))

/-- C6: `createOrUpdate` fails with the capacity error exactly when the
store already holds the maximum number of distinct ids and the id is
new; an id already present always succeeds; a successful upsert stores
the record under the id, keeps the count within the maximum, and
preserves distinctness of the stored ids. -/
theorem c6_store_capacity (s : SessionMap) (id : String) (r : ImageUploadRecord) :
    (ImageUploadStore.size s = MAX_SESSIONS → ImageUploadStore.has s id = false →
        ImageUploadStore.createOrUpdate s id r = .error "Maximum sessions limit reached")
    ∧ (ImageUploadStore.has s id = true →
        ImageUploadStore.createOrUpdate s id r = .ok (ImageUploadStore.set s id r))
    ∧ (∀ err, ImageUploadStore.createOrUpdate s id r = .error err →
        MAX_SESSIONS ≤ ImageUploadStore.size s ∧ ImageUploadStore.has s id = false)
    ∧ (∀ s2, ImageUploadStore.createOrUpdate s id r = .ok s2 →
        s2 = ImageUploadStore.set s id r
        ∧ ImageUploadStore.getBySessionId s2 id = some r
        ∧ (ImageUploadStore.size s ≤ MAX_SESSIONS →
            ImageUploadStore.size s2 ≤ MAX_SESSIONS)
        ∧ ((s.map Prod.fst).Nodup → (s2.map Prod.fst).Nodup)) := by
  refine ⟨fun h1 h2 => ?_, fun h => ?_, fun err h => ?_, fun s2 h => ?_⟩
  · unfold ImageUploadStore.createOrUpdate
    rw [if_pos ⟨le_of_eq h1.symm, h2⟩]
  · unfold ImageUploadStore.createOrUpdate
    rw [if_neg]
    intro hcon
    rw [h] at hcon
    exact absurd hcon.2 (by simp)
  · unfold ImageUploadStore.createOrUpdate at h
    by_cases hcond : MAX_SESSIONS ≤ ImageUploadStore.size s
        ∧ ImageUploadStore.has s id = false
    · exact hcond
    · rw [if_neg hcond] at h
      exact absurd h (by simp)
  · unfold ImageUploadStore.createOrUpdate at h
    by_cases hcond : MAX_SESSIONS ≤ ImageUploadStore.size s
        ∧ ImageUploadStore.has s id = false
    · rw [if_pos hcond] at h
      exact absurd h (by simp)
    · rw [if_neg hcond] at h
      have hs2 : s2 = ImageUploadStore.set s id r := by
        injection h with h2
        exact h2.symm
      subst hs2
      refine ⟨rfl, ImageUploadStore.getBySessionId_set_self s id r, fun hle => ?_,
        fun hnd => ImageUploadStore.nodup_keys_set s id r hnd⟩
      rw [ImageUploadStore.size_set]
      by_cases hhas : ImageUploadStore.has s id
      · rw [if_pos hhas]
        exact hle
      · rw [if_neg hhas]
        have hlt : ImageUploadStore.size s < MAX_SESSIONS := by
          rcases Nat.lt_or_ge (ImageUploadStore.size s) MAX_SESSIONS with hlt | hge
          · exact hlt
          · exact absurd ⟨hge, Bool.eq_false_iff.mpr hhas⟩ hcond
        omega

/-- Concrete instantiation of `c6_store_capacity`: at 100 stored ids a
new id is rejected while re-upserting the present id `5` succeeds. -/
theorem c6_store_capacity_witness :
    ImageUploadStore.createOrUpdate fullStore "overflow-id" (blankRecord "overflow-id")
      = .error "Maximum sessions limit reached"
    ∧ ImageUploadStore.createOrUpdate fullStore "5" (blankRecord "5")
      = .ok (ImageUploadStore.set fullStore "5" (blankRecord "5")) :=
  ⟨(c6_store_capacity fullStore "overflow-id" (blankRecord "overflow-id")).1
      (by decide) (by decide),
   (c6_store_capacity fullStore "5" (blankRecord "5")).2.1 (by decide)⟩

/-- Errors propagating out of the service layer: a thrown `ServiceError`
or a plain JavaScript `Error` (as thrown by the store). -/
inductive AppError where
  | service (e : ServiceError)
  | plain (message : String)
deriving DecidableEq, Repr

/-- The multer file object fields used by `imageUploadCreate`. -/
structure ReqFile where
  originalname : String
  mimetype : String
  size : Int
  buffer : List Nat
deriving DecidableEq, Repr

/-- Mirror of `ImageUploadCreateResponse`. -/
structure ImageUploadCreateResponse where
  sessionId : String
  fileName : String
  fileSize : Int
  mimeType : String
  status : String
  uploadedAt : String
deriving DecidableEq, Repr

/-- Mirror of `ImageUploadSessionResponse`. -/
structure ImageUploadSessionResponse where
  sessionId : String
  status : String
  fileName : Option String
  fileSize : Option Int
  createdAt : String
deriving DecidableEq, Repr

/-- Mirror of `ImageUploadResetResponse`. -/
structure ImageUploadResetResponse where
  sessionId : String
  status : String
  message : String
deriving DecidableEq, Repr

/-- Error thrown by `imageUploadCreate` when `req.file` is absent. -/
def noFileError : ServiceError :=
  ⟨"VALIDATION_ERROR", "Nenhum arquivo foi selecionado", 400⟩

/-- Error thrown by `imageUploadCreate` on re-upload into a completed
session. -/
def sessionLimitError : ServiceError :=
  ⟨"SESSION_LIMIT_REACHED",
   "Um arquivo já foi processado nesta sessão. Por favor, clique em \"Iniciar Novo Upload\" para fazer um novo upload",
   400⟩

/-- Error thrown on a malformed session id. -/
def invalidSessionError : ServiceError :=
  ⟨"VALIDATION_ERROR", "ID de sessão inválido", 400⟩

/-- Error thrown when a session id is not in the store. -/
def notFoundError : ServiceError :=
  ⟨"NOT_FOUND", "Sessão não encontrada", 404⟩

/-- Hexadecimal digit in either letter case. -/
def isHexDigit (c : Char) : Bool :=
  c.isDigit || ('a' ≤ c && c ≤ 'f') || ('A' ≤ c && c ≤ 'F')

/-- Modelled from the spec: the session-id schema delegates to
`z.string().uuid()` from the zod dependency, whose implementation is not
part of this repository; per the spec, externally supplied session
identifiers must be syntactically valid UUIDs, modelled here as five
dash-separated hexadecimal groups of lengths 8-4-4-4-12. -/
def isValidUuid (s : String) : Bool :=
  match s.toList.splitOn '-' with
  | [a, b, c, d, e] =>
    a.length == 8 && b.length == 4 && c.length == 4 && d.length == 4 && e.length == 12
      && (a ++ b ++ c ++ d ++ e).all isHexDigit
  | _ => false

/-- JavaScript `a || b` on strings: the empty string is falsy. -/
def jsOrString (a b : String) : String :=
  if a = "" then b else a

/-- Mirror of `imageUploadCreate`: the request file and the
`x-session-id` header are passed explicitly, and the fresh UUID and the
current timestamp produced inside the function become parameters. -/
def imageUploadCreate (reqFile : Option ReqFile) (headerSessionId : Option String)
    (s : SessionMap) (freshId now : String) :
    Except AppError (ImageUploadCreateResponse × SessionMap) :=
  match reqFile with
  | none => .error (.service noFileError)
  | some f =>
    let validationResult :=
      validateImageFile ⟨f.originalname, f.size, f.mimetype, f.buffer⟩
    if validationResult.isValid = false then
      .error (.service ⟨validationResult.errorCode.getD "VALIDATION_ERROR",
        validationResult.errorMessage.getD "Falha na validação do arquivo", 400⟩)
    else
      let blocked :=
        match headerSessionId with
        | some sid =>
          match ImageUploadStore.getBySessionId s sid with
          | some existingSession => existingSession.status == "concluida"
          | none => false
        | none => false
      if blocked then .error (.service sessionLimitError)
      else
        let newSessionId := headerSessionId.getD freshId
        let createdAt :=
          match headerSessionId with
          | some sid =>
            match ImageUploadStore.getBySessionId s sid with
            | some existingSession => jsOrString existingSession.createdAt now
            | none => now
          | none => now
        let record : ImageUploadRecord :=
          ⟨newSessionId, "concluida", some f.originalname, some f.size, some f.mimetype,
           some f.buffer, createdAt, now⟩
        match ImageUploadStore.createOrUpdate s newSessionId record with
        | .error msg => .error (.plain msg)
        | .ok s2 =>
          .ok (⟨newSessionId, f.originalname, f.size, f.mimetype, "concluida", now⟩, s2)

/-- Mirror of `imageUploadGetSession`: schema validation of the id, then
lookup. -/
def imageUploadGetSession (sessionId : String) (s : SessionMap) :
    Except AppError ImageUploadSessionResponse :=
  if isValidUuid sessionId = false then .error (.service invalidSessionError)
  else
    match ImageUploadStore.getBySessionId s sessionId with
    | none => .error (.service notFoundError)
    | some session =>
      .ok ⟨session.sessionId, session.status, session.fileName, session.fileSize,
        session.createdAt⟩

/-- The blank record created by `imageUploadResetSession`. -/
def resetRecord (freshId now : String) : ImageUploadRecord :=
  ⟨freshId, "nova", none, none, none, none, now, now⟩

/-- Mirror of `imageUploadResetSession`: schema validation, lookup,
delete, then creation of a blank record under a fresh id. -/
def imageUploadResetSession (sessionId : String) (s : SessionMap) (freshId now : String) :
    Except AppError (ImageUploadResetResponse × SessionMap) :=
  if isValidUuid sessionId = false then .error (.service invalidSessionError)
  else
    match ImageUploadStore.getBySessionId s sessionId with
    | none => .error (.service notFoundError)
    | some _ =>
      let s1 := ImageUploadStore.delete s sessionId
      match ImageUploadStore.createOrUpdate s1 freshId (resetRecord freshId now) with
      | .error msg => .error (.plain msg)
      | .ok s2 => .ok (⟨freshId, "nova", "Sessão reiniciada com sucesso"⟩, s2)

/-- The store as seen after a call of `imageUploadCreate`: unchanged when
the call threw. -/
def resultingStore (res : Except AppError (ImageUploadCreateResponse × SessionMap))
    (s : SessionMap) : SessionMap :=
  match res with
  | .ok r => r.2
  | .error _ => s

/-- A minimal well-formed PNG payload: signature followed by IEND. -/
def validPngBuffer : List Nat := pngSignature ++ pngEndSignature

/-- C7: `imageUploadCreate` never touches the store before validation
succeeds: a missing file, a failing file validation, and a re-upload
into a completed session all throw — the last with
`SESSION_LIMIT_REACHED` — and every thrown error leaves the store
exactly as it was. -/
theorem c7_create_no_partial_state (f : ReqFile) (sid : Option String) (s : SessionMap)
    (freshId now : String) :
    (imageUploadCreate none sid s freshId now = .error (.service noFileError)
      ∧ resultingStore (imageUploadCreate none sid s freshId now) s = s)
    ∧ ((validateImageFile ⟨f.originalname, f.size, f.mimetype, f.buffer⟩).isValid = false →
        imageUploadCreate (some f) sid s freshId now
          = .error (.service
              ⟨(validateImageFile
                  ⟨f.originalname, f.size, f.mimetype, f.buffer⟩).errorCode.getD
                "VALIDATION_ERROR",
               (validateImageFile
                  ⟨f.originalname, f.size, f.mimetype, f.buffer⟩).errorMessage.getD
                "Falha na validação do arquivo", 400⟩))
    ∧ (∀ sid0 rec, sid = some sid0 →
        ImageUploadStore.getBySessionId s sid0 = some rec →
        rec.status = "concluida" →
        (validateImageFile ⟨f.originalname, f.size, f.mimetype, f.buffer⟩).isValid = true →
        imageUploadCreate (some f) sid s freshId now = .error (.service sessionLimitError))
    ∧ (∀ e, imageUploadCreate (some f) sid s freshId now = .error e →
        resultingStore (imageUploadCreate (some f) sid s freshId now) s = s) := by
  refine ⟨⟨rfl, rfl⟩, fun h => ?_, fun sid0 rec hsid hget hstatus hvalid => ?_,
    fun e h => ?_⟩
  · simp [imageUploadCreate, h]
  · subst hsid
    have hbeq : (rec.status == "concluida") = true := beq_iff_eq.mpr hstatus
    simp [imageUploadCreate, hvalid, hget, hbeq]
  · rw [h]
    rfl

/-- Concrete instantiation of `c7_create_no_partial_state`: an empty
file throws the size-stage error, and a valid PNG re-uploaded into a
completed session throws `SESSION_LIMIT_REACHED`. -/
theorem c7_create_no_partial_state_witness :
    imageUploadCreate (some ⟨"photo.png", "image/png", 0, []⟩) none [] "fid" "t0"
      = .error (.service ⟨"CORRUPTED_FILE", "O arquivo parece estar vazio ou corrompido", 400⟩)
    ∧ imageUploadCreate (some ⟨"photo.png", "image/png", 20, validPngBuffer⟩)
        (some "11111111-1111-1111-1111-111111111111")
        [("11111111-1111-1111-1111-111111111111",
          ⟨"11111111-1111-1111-1111-111111111111", "concluida", some "a.png", some 5,
           some "image/png", some [], "t0", "t0"⟩)]
        "fid" "t1"
      = .error (.service sessionLimitError) :=
  ⟨(c7_create_no_partial_state ⟨"photo.png", "image/png", 0, []⟩ none [] "fid" "t0").2.1
      (by decide),
   (c7_create_no_partial_state ⟨"photo.png", "image/png", 20, validPngBuffer⟩
      (some "11111111-1111-1111-1111-111111111111")
      [("11111111-1111-1111-1111-111111111111",
        ⟨"11111111-1111-1111-1111-111111111111", "concluida", some "a.png", some 5,
         some "image/png", some [], "t0", "t0"⟩)]
      "fid" "t1").2.2.1
      "11111111-1111-1111-1111-111111111111"
      ⟨"11111111-1111-1111-1111-111111111111", "concluida", some "a.png", some 5,
       some "image/png", some [], "t0", "t0"⟩
      rfl (by decide) rfl (by decide)⟩

/-- C8: resetting an existing session deletes the old id and stores a
blank `nova` record under the distinct fresh id, after which looking the
old id up fails with `NOT_FOUND`; resetting an absent id fails with
`NOT_FOUND`. -/
theorem c8_reset_session (s : SessionMap) (sessionId freshId now : String) :
    (∀ rec, isValidUuid sessionId = true →
        ImageUploadStore.getBySessionId s sessionId = some rec →
        freshId ≠ sessionId →
        ImageUploadStore.size s ≤ MAX_SESSIONS →
        imageUploadResetSession sessionId s freshId now
            = .ok (⟨freshId, "nova", "Sessão reiniciada com sucesso"⟩,
                ImageUploadStore.set (ImageUploadStore.delete s sessionId) freshId
                  (resetRecord freshId now))
          ∧ ImageUploadStore.getBySessionId
              (ImageUploadStore.set (ImageUploadStore.delete s sessionId) freshId
                (resetRecord freshId now)) freshId = some (resetRecord freshId now)
          ∧ ImageUploadStore.getBySessionId
              (ImageUploadStore.set (ImageUploadStore.delete s sessionId) freshId
                (resetRecord freshId now)) sessionId = none
          ∧ imageUploadGetSession sessionId
              (ImageUploadStore.set (ImageUploadStore.delete s sessionId) freshId
                (resetRecord freshId now)) = .error (.service notFoundError))
    ∧ (isValidUuid sessionId = true →
        ImageUploadStore.getBySessionId s sessionId = none →
        imageUploadResetSession sessionId s freshId now
          = .error (.service notFoundError)) := by
  constructor
  · intro rec huuid hget hne hsize
    have hhas : ImageUploadStore.has s sessionId = true :=
      ImageUploadStore.has_of_getBySessionId s sessionId rec hget
    have hlt := ImageUploadStore.size_delete_lt s sessionId hhas
    have hcond : ¬ (MAX_SESSIONS ≤ ImageUploadStore.size (ImageUploadStore.delete s sessionId)
        ∧ ImageUploadStore.has (ImageUploadStore.delete s sessionId) freshId = false) := by
      rintro ⟨h1, -⟩
      omega
    have hok : ImageUploadStore.createOrUpdate (ImageUploadStore.delete s sessionId) freshId
        (resetRecord freshId now)
        = .ok (ImageUploadStore.set (ImageUploadStore.delete s sessionId) freshId
            (resetRecord freshId now)) := by
      unfold ImageUploadStore.createOrUpdate
      rw [if_neg hcond]
    have hgone : ImageUploadStore.getBySessionId
        (ImageUploadStore.set (ImageUploadStore.delete s sessionId) freshId
          (resetRecord freshId now)) sessionId = none := by
      rw [ImageUploadStore.getBySessionId_set_ne _ _ _ _ (Ne.symm hne),
        ImageUploadStore.getBySessionId_delete_self]
    refine ⟨?_, ImageUploadStore.getBySessionId_set_self _ _ _, hgone, ?_⟩
    · simp [imageUploadResetSession, huuid, hget, hok]
    · simp [imageUploadGetSession, huuid, hgone]
  · intro huuid hget
    simp [imageUploadResetSession, huuid, hget]

/-- Concrete instantiation of `c8_reset_session`: resetting the only
session replaces it by a blank record under the fresh id and the old id
is gone; resetting on an empty store fails with `NOT_FOUND`. -/
theorem c8_reset_session_witness :
    imageUploadResetSession "11111111-1111-1111-1111-111111111111"
        [("11111111-1111-1111-1111-111111111111",
          blankRecord "11111111-1111-1111-1111-111111111111")]
        "22222222-2222-2222-2222-222222222222" "t1"
      = .ok (⟨"22222222-2222-2222-2222-222222222222", "nova",
              "Sessão reiniciada com sucesso"⟩,
             [("22222222-2222-2222-2222-222222222222",
               resetRecord "22222222-2222-2222-2222-222222222222" "t1")])
    ∧ imageUploadResetSession "11111111-1111-1111-1111-111111111111" []
        "22222222-2222-2222-2222-222222222222" "t1"
      = .error (.service notFoundError) :=
  ⟨((c8_reset_session
      [("11111111-1111-1111-1111-111111111111",
        blankRecord "11111111-1111-1111-1111-111111111111")]
      "11111111-1111-1111-1111-111111111111"
      "22222222-2222-2222-2222-222222222222" "t1").1
      (blankRecord "11111111-1111-1111-1111-111111111111")
      (by decide) (by decide) (by decide) (by decide)).1,
   (c8_reset_session [] "11111111-1111-1111-1111-111111111111"
      "22222222-2222-2222-2222-222222222222" "t1").2 (by decide) rfl⟩

/-- C9 counterexample: `imageUploadCreate` performs no UUID validation
on the `x-session-id` header — a syntactically invalid session id is
accepted, the upload succeeds, and a session is stored under the
malformed id instead of being rejected with a validation error. -/
theorem c9_counterexample :
    isValidUuid "not-a-uuid" = false
    ∧ imageUploadCreate (some ⟨"photo.png", "image/png", 20, validPngBuffer⟩)
        (some "not-a-uuid") [] "fid" "t0"
      = .ok (⟨"not-a-uuid", "photo.png", 20, "image/png", "concluida", "t0"⟩,
             [("not-a-uuid",
               ⟨"not-a-uuid", "concluida", some "photo.png", some 20, some "image/png",
                some validPngBuffer, "t0", "t0"⟩)]) := by
  decide

/-- C9 (amended): `imageUploadGetSession` and `imageUploadResetSession`
reject a session id that is not a syntactically valid UUID with the
`VALIDATION_ERROR` service error before any store access; the create
operation applies no such check to its header id. -/
theorem c9_uuid_validation (sessionId : String) (s : SessionMap) (freshId now : String) :
    (isValidUuid sessionId = false →
        imageUploadGetSession sessionId s = .error (.service invalidSessionError))
    ∧ (isValidUuid sessionId = false →
        imageUploadResetSession sessionId s freshId now
          = .error (.service invalidSessionError)) := by
  constructor
  · intro h
    simp [imageUploadGetSession, h]
  · intro h
    simp [imageUploadResetSession, h]

/-- Concrete instantiation of `c9_uuid_validation` at the malformed id
`abc`. -/
theorem c9_uuid_validation_witness :
    imageUploadGetSession "abc" [] = .error (.service invalidSessionError)
    ∧ imageUploadResetSession "abc" [] "fid" "t0" = .error (.service invalidSessionError) :=
  ⟨(c9_uuid_validation "abc" [] "fid" "t0").1 (by decide),
   (c9_uuid_validation "abc" [] "fid" "t0").2 (by decide)⟩

namespace FrontendUpload

/-- The browser `File` fields used by the client-side validation. -/
structure FrontFile where
  name : String
  size : Int
  type : String
  bytes : List Nat
deriving DecidableEq, Repr

/-- Mirror of the client-side `ValidationError` record. -/
structure ValidationError where
  type : String
  message : String
deriving DecidableEq, Repr

/-- Client-side `MAX_FILE_SIZE`. -/
def MAX_FILE_SIZE : Int := 15 * 1024 * 1024

/-- Client-side `ACCEPTED_EXTENSIONS`. -/
def ACCEPTED_EXTENSIONS : List String := [".png", ".jpg", ".jpeg"]

/-- Client-side `ACCEPTED_MIME_TYPES`. -/
def ACCEPTED_MIME_TYPES : List String := ["image/png", "image/jpeg"]

/-- Client-side `PNG_SIGNATURE`. -/
def PNG_SIGNATURE : List Nat := [0x89, 0x50, 0x4e, 0x47, 0x0d, 0x0a, 0x1a, 0x0a]

/-- Client-side `JPEG_SIGNATURE`. -/
def JPEG_SIGNATURE : List Nat := [0xff, 0xd8, 0xff]

/-- JavaScript `name.toLowerCase()`. -/
def toLowerName (s : String) : String :=
  String.mk (s.toList.map Char.toLower)

/-- Mirror of the client-side `validateFileSize`. -/
def validateFileSize (file : FrontFile) : Option ValidationError :=
  if file.size = 0 then some ⟨"size", "O arquivo está vazio"⟩
  else if file.size > MAX_FILE_SIZE then
    some ⟨"size",
      "O arquivo excede o tamanho máximo permitido de 15MB. Por favor, envie um arquivo menor."⟩
  else none

/-- Mirror of the client-side `validateFileExtension` (suffix check). -/
def validateFileExtension (file : FrontFile) : Option ValidationError :=
  let fileName := toLowerName file.name
  if ACCEPTED_EXTENSIONS.any fun ext => ext.toList.isSuffixOf fileName.toList then none
  else some ⟨"extension",
    "O formato do arquivo não é suportado. Por favor, envie apenas imagens PNG ou JPEG."⟩

/-- Mirror of the client-side `validateMimeType`. -/
def validateMimeType (file : FrontFile) : Option ValidationError :=
  if file.type ∈ ACCEPTED_MIME_TYPES then none
  else some ⟨"format",
    "O formato do arquivo não é suportado. Por favor, envie apenas imagens PNG ou JPEG."⟩

/-- Mirror of `readFileHeader`: the first bytes of the file. -/
def readFileHeader (file : FrontFile) (bytesToRead : Nat) : List Nat :=
  file.bytes.take bytesToRead

/-- Mirror of the client-side `validateFileFormat` (magic bytes and
extension agreement). -/
def validateFileFormat (file : FrontFile) : Option ValidationError :=
  let header := readFileHeader file 8
  let isPNG := matchesAt header PNG_SIGNATURE 0
  let isJPEG := matchesAt header JPEG_SIGNATURE 0
  if !isPNG && !isJPEG then
    some ⟨"format",
      "O formato real do arquivo não corresponde à sua extensão. Por favor, verifique o arquivo."⟩
  else
    let fileName := toLowerName file.name
    if isPNG && !(".png".toList.isSuffixOf fileName.toList) then
      some ⟨"format",
        "O arquivo é PNG mas tem extensão diferente. Por favor, renomeie o arquivo com extensão .png"⟩
    else if isJPEG && !(".jpg".toList.isSuffixOf fileName.toList)
        && !(".jpeg".toList.isSuffixOf fileName.toList) then
      some ⟨"format",
        "O arquivo é JPEG mas tem extensão diferente. Por favor, renomeie o arquivo com extensão .jpg ou .jpeg"⟩
    else none

/-- Mirror of the client-side `ValidationResult`. -/
structure FrontValidationResult where
  isValid : Bool
  errors : List ValidationError
deriving DecidableEq, Repr

/-- Mirror of the client-side `validateImageFile` chain: size,
extension, MIME type, magic bytes, then integrity; the browser
`Image`-loading integrity stage is environment-dependent and is modelled
as an oracle argument. -/
def validateImageFile (file : FrontFile) (integrityOracle : Option ValidationError) :
    FrontValidationResult :=
  match validateFileSize file with
  | some e => ⟨false, [e]⟩
  | none =>
    match validateFileExtension file with
    | some e => ⟨false, [e]⟩
    | none =>
      match validateMimeType file with
      | some e => ⟨false, [e]⟩
      | none =>
        match validateFileFormat file with
        | some e => ⟨false, [e]⟩
        | none =>
          match integrityOracle with
          | some e => ⟨false, [e]⟩
          | none => ⟨true, []⟩

end FrontendUpload

/-- C5 counterexample: the MIME allow-list actually enforced by
`validateMimeType` does not contain `image/jpg` — a file declaring that
type is rejected — and the backend upload coordinator applies no MIME
validation at all: an upload declaring `text/plain` passes end to end. -/
theorem c5_counterexample :
    FrontendUpload.validateMimeType ⟨"a.jpg", 10, "image/jpg", []⟩
      = some ⟨"format",
          "O formato do arquivo não é suportado. Por favor, envie apenas imagens PNG ou JPEG."⟩
    ∧ "image/jpg" ∉ FrontendUpload.ACCEPTED_MIME_TYPES
    ∧ imageUploadCreate (some ⟨"photo.png", "text/plain", 20, validPngBuffer⟩)
        none [] "fid" "t0"
      = .ok (⟨"fid", "photo.png", 20, "text/plain", "concluida", "t0"⟩,
             [("fid",
               ⟨"fid", "concluida", some "photo.png", some 20, some "text/plain",
                some validPngBuffer, "t0", "t0"⟩)]) := by
  decide

/-- C5 (amended): the declared MIME type is validated only client-side:
`validateMimeType` accepts exactly the types in the two-element
allow-list `image/png`, `image/jpeg` and runs as the third stage of the
client chain (after size and extension, before the signature check),
while the backend four-stage chain is entirely independent of the
declared MIME type. -/
theorem c5_mime_validation (f : FrontendUpload.FrontFile)
    (oracle : Option FrontendUpload.ValidationError) (m1 m2 : String)
    (input : FileValidationInput) :
    (FrontendUpload.validateMimeType f = none ↔ f.type ∈ FrontendUpload.ACCEPTED_MIME_TYPES)
    ∧ (∀ e, FrontendUpload.validateFileSize f = none →
        FrontendUpload.validateFileExtension f = none →
        FrontendUpload.validateMimeType f = some e →
        FrontendUpload.validateImageFile f oracle = ⟨false, [e]⟩)
    ∧ validateImageFile { input with mimeType := m1 }
        = validateImageFile { input with mimeType := m2 } := by
  refine ⟨?_, fun e h1 h2 h3 => ?_, ?_⟩
  · unfold FrontendUpload.validateMimeType
    by_cases h : f.type ∈ FrontendUpload.ACCEPTED_MIME_TYPES
    · rw [if_pos h]
      simp [h]
    · rw [if_neg h]
      simp [h]
  · unfold FrontendUpload.validateImageFile
    rw [h1, h2, h3]
  · cases input
    rfl

/-- Concrete instantiation of `c5_mime_validation`: a file declaring
`image/gif` with valid size and extension is stopped by the MIME stage
of the client chain, and the backend chain gives the same result under
two different declared MIME types. -/
theorem c5_mime_validation_witness :
    FrontendUpload.validateImageFile ⟨"a.png", 10, "image/gif", []⟩ none
      = ⟨false, [⟨"format",
          "O formato do arquivo não é suportado. Por favor, envie apenas imagens PNG ou JPEG."⟩]⟩
    ∧ validateImageFile ⟨"x.png", 5, "text/plain", []⟩
        = validateImageFile ⟨"x.png", 5, "image/png", []⟩ :=
  ⟨(c5_mime_validation ⟨"a.png", 10, "image/gif", []⟩ none "a" "b"
      ⟨"x.png", 5, "text/plain", []⟩).2.1
      ⟨"format",
        "O formato do arquivo não é suportado. Por favor, envie apenas imagens PNG ou JPEG."⟩
      (by decide) (by decide) (by decide),
   (c5_mime_validation ⟨"a.png", 10, "image/gif", []⟩ none "text/plain" "image/png"
      ⟨"x.png", 5, "text/plain", []⟩).2.2⟩

/-- C8 counterexample: reset on the absent id `abc` does not fail with
`NOT_FOUND` — the schema rejects the malformed id with the validation
error before the store is consulted. -/
theorem c8_counterexample :
    ImageUploadStore.getBySessionId [] "abc" = none
    ∧ imageUploadResetSession "abc" [] "fid" "t0" = .error (.service invalidSessionError)
    ∧ imageUploadResetSession "abc" [] "fid" "t0" ≠ .error (.service notFoundError) := by
  decide
